import Mathlib

/-!
Shallow embedding of `process_transcripts.py`: the custom-delimiter
streaming reader `read_custom_format`, its chunked aggregation into a
final table, and the save / format-selection logic
(`save_processed_data` and the save step of `process_transcript_files`).

Modelling conventions:
* the decompressed input stream is a `List Char` (the gzip layer is
  outside the scope of every claim);
* a pandas `DataFrame` is a `DataFrame`: column names plus rows of
  optional string cells, `none` standing for `NaN` / Python `None`;
* pandas calls that can raise (`pd.DataFrame` on mismatched widths,
  `pd.concat` on an empty list) return `Except String`;
* Python's `str.split` / `str.strip` are embedded explicitly
  (`pySplit`, `pyStrip`) so that every operation reduces in the kernel;
* `os.path.getsize`-derived file sizes are an oracle `String → ℚ`
  (exact rationals in place of the script's floating megabyte values;
  no claim depends on float rounding).
-/

/-- A pandas DataFrame as this pipeline produces it: named columns and
rows of optional string cells (`none` models `NaN`/`None`). -/
structure DataFrame where
  columns : List String
  rows : List (List (Option String))
  deriving Repr, DecidableEq

/-- The row separator of the custom format: a backtick. -/
def rowSep : Char := '\x60'

/-- The field separator of the custom format: a tilde. -/
def fieldSep : Char := '~'

/-- Auxiliary for `pySplit`: splits a character list at every occurrence
of `sep`, `acc` being the (reversed) characters of the current piece. -/
def pySplitAux (sep : Char) : List Char → List Char → List (List Char)
  | [], acc => [acc.reverse]
  | c :: rest, acc =>
    if c = sep then acc.reverse :: pySplitAux sep rest []
    else pySplitAux sep rest (c :: acc)

/-- Python's `s.split(sep)` for a one-character separator: splits at every
occurrence, keeping empty pieces (`"".split(sep) == ['']`). -/
def pySplit (sep : Char) (s : String) : List String :=
  (pySplitAux sep s.data []).map String.mk

/-- Characters removed by Python's `str.strip()` (ASCII whitespace). -/
def isSpaceChar (c : Char) : Bool := c.isWhitespace

/-- Python's `s.strip()`: drop leading and trailing whitespace. -/
def pyStrip (s : String) : String :=
  String.mk (((s.data.dropWhile isSpaceChar).reverse.dropWhile isSpaceChar).reverse)

/-- `pd.DataFrame(data, columns=cols)` on a list of row lists: pandas pads
ragged rows with `NaN` up to the widest row, then requires that width to
equal the number of column names, raising `ValueError` otherwise.  An
empty data list yields an empty frame with the given columns. -/
def mkDataFrame (data : List (List (Option String))) (cols : List String) :
    Except String DataFrame :=
  match data with
  | [] => .ok ⟨cols, []⟩
  | _ =>
    let w := data.foldl (fun m r => max m r.length) 0
    if w = cols.length then
      .ok ⟨cols, data.map (fun r => r ++ List.replicate (w - r.length) none)⟩
    else .error "columns passed mismatch"

/-- `pd.concat(dfs, ignore_index=True)`: raises on an empty list, else
concatenates the rows in order (all chunks here share one column list,
whose first occurrence names the result's columns). -/
def pdConcat (dfs : List DataFrame) : Except String DataFrame :=
  match dfs with
  | [] => .error "No objects to concatenate"
  | d :: ds => .ok ⟨d.columns, ((d :: ds).map DataFrame.rows).flatten⟩

/-- The header scan (lines 64-69): read characters until end of file or
the first row separator; returns the header line and the rest of the
stream. -/
def splitHeader : List Char → String → String × List Char
  | [], acc => (acc, [])
  | c :: rest, acc =>
    if c = rowSep then (acc, rest) else splitHeader rest (acc.push c)

/-- Header parsing (line 71): the header line split on the field
separator, each name stripped; paired with the unread remainder. -/
def parseHeader (stream : List Char) : List String × List Char :=
  let p := splitHeader stream ""
  ((pySplit fieldSep p.1).map pyStrip, p.2)

/-- Column resolution (line 73): `[headers.index(col) for col in usecols
if col in headers]` — first index in the header of each requested column
present, in requested order. -/
def resolveCols (headers : List String) (usecols : List String) : List Nat :=
  usecols.filterMap (fun c => headers.findIdx? (fun h => h == c))

/-- Lines 72-77: the projection (if any) and the headers actually used.
An empty `usecols` list is falsy in Python and behaves like `None`. -/
def resolveCfg (headers : List String) (usecols : Option (List String)) :
    Option (List Nat) × List String :=
  match usecols with
  | none => (none, headers)
  | some l =>
    if l ≠ [] then
      (some (resolveCols headers l),
        (resolveCols headers l).map (fun i => headers.getD i ""))
    else (none, headers)

/-- Row projection (lines 92-95): with a projection, pick the resolved
positions' fields in order, `none` for positions past the row's last
field; without, keep all fields. -/
def mkRowData (proj : Option (List Nat)) (fields : List String) :
    List (Option String) :=
  match proj with
  | some idxs => idxs.map (fun i => fields.get? i)
  | none => fields.map some

/-- The row-limit test of line 108: `if nrows and row_count >= nrows` —
note that `nrows = 0` is falsy in Python and imposes no limit. -/
def nrowsHit (nrows : Option Nat) (row_count : Nat) : Bool :=
  match nrows with
  | none => false
  | some n => n != 0 && decide (n ≤ row_count)

/-- Lines 117-120: flush of a final partially-filled chunk. -/
def flushFinal (usedHeaders : List String) (chunk : List (List (Option String)))
    (dfs : List DataFrame) : Except String (List DataFrame) :=
  if chunk = [] then .ok dfs
  else
    match mkDataFrame chunk usedHeaders with
    | .error e => .error e
    | .ok df => .ok (dfs ++ [df])

/-- The main loop of `read_custom_format` (lines 84-120) over the
post-header stream: accumulate characters into `cur`; at each row
separator emit the stripped-nonempty row into the current chunk, flush
the chunk to a DataFrame when it reaches `chunksize`, and stop once the
row limit is hit; at end of stream flush the remaining chunk. -/
def processRows (proj : Option (List Nat)) (usedHeaders : List String)
    (nrows : Option Nat) (chunksize : Nat) :
    List Char → String → List (List (Option String)) → List DataFrame → Nat →
    Except String (List DataFrame)
  | [], _, chunk, dfs, _ => flushFinal usedHeaders chunk dfs
  | ch :: rest, cur, chunk, dfs, rc =>
    if ch = rowSep then
      let st1 : List (List (Option String)) × Nat :=
        if pyStrip cur ≠ "" then
          (chunk ++ [mkRowData proj (pySplit fieldSep cur)], rc + 1)
        else (chunk, rc)
      if st1.1.length ≥ chunksize then
        match mkDataFrame st1.1 usedHeaders with
        | .error e => .error e
        | .ok df =>
          if nrowsHit nrows st1.2 then flushFinal usedHeaders [] (dfs ++ [df])
          else processRows proj usedHeaders nrows chunksize rest "" [] (dfs ++ [df]) st1.2
      else
        if nrowsHit nrows st1.2 then flushFinal usedHeaders st1.1 dfs
        else processRows proj usedHeaders nrows chunksize rest "" st1.1 dfs st1.2
    else processRows proj usedHeaders nrows chunksize rest (cur.push ch) chunk dfs rc

/-- `read_custom_format` (lines 45-126) on the decompressed stream:
parse the header, resolve the optional projection, run the chunked row
loop, and concatenate all chunks. -/
def read_custom_format (stream : List Char) (nrows : Option Nat)
    (usecols : Option (List String)) (chunksize : Nat) :
    Except String DataFrame :=
  let p := parseHeader stream
  let cfg := resolveCfg p.1 usecols
  match processRows cfg.1 cfg.2 nrows chunksize p.2 "" [] [] 0 with
  | .error e => .error e
  | .ok dfs => pdConcat dfs

/-- The record-emission behaviour of the reader's loop, as raw field
lists: each row-separator-terminated segment whose stripped content is
non-empty is split on the field separator and emitted, until the row
limit is hit (lines 84-113, before projection). -/
def tokenizeFields (nrows : Option Nat) :
    List Char → String → Nat → List (List String)
  | [], _, _ => []
  | ch :: rest, cur, rc =>
    if ch = rowSep then
      if pyStrip cur ≠ "" then
        let fields := pySplit fieldSep cur
        if nrowsHit nrows (rc + 1) then [fields]
        else fields :: tokenizeFields nrows rest "" (rc + 1)
      else
        if nrowsHit nrows rc then []
        else tokenizeFields nrows rest "" rc
    else tokenizeFields nrows rest (cur.push ch) rc

/-- The record-emission behaviour of the reader's loop with the
projection applied per emitted row, exactly as lines 89-98 build
`row_data`. -/
def tokenize (proj : Option (List Nat)) (nrows : Option Nat) :
    List Char → String → Nat → List (List (Option String))
  | [], _, _ => []
  | ch :: rest, cur, rc =>
    if ch = rowSep then
      if pyStrip cur ≠ "" then
        let row := mkRowData proj (pySplit fieldSep cur)
        if nrowsHit nrows (rc + 1) then [row]
        else row :: tokenize proj nrows rest "" (rc + 1)
      else
        if nrowsHit nrows rc then []
        else tokenize proj nrows rest "" rc
    else tokenize proj nrows rest (cur.push ch) rc

/-- The Tokenizing Reader's record sequence for a whole stream: header
parsed, projection resolved once, rows emitted by the loop. -/
def readerRecords (stream : List Char) (nrows : Option Nat)
    (usecols : Option (List String)) : List (List (Option String)) :=
  let p := parseHeader stream
  tokenize (resolveCfg p.1 usecols).1 nrows p.2 "" 0

/-- Modelled from the spec: "the number of row-separator occurrences
whose preceding accumulated content is non-empty after trimming",
counted over a character stream with `acc` the content accumulated so
far. -/
def rowSepEmitCount : List Char → String → Nat
  | [], _ => 0
  | ch :: rest, acc =>
    if ch = rowSep then
      (if pyStrip acc ≠ "" then 1 else 0) + rowSepEmitCount rest ""
    else rowSepEmitCount rest (acc.push ch)

/-- Whether an `Except` result is an error. -/
def isErr : Except String DataFrame → Bool
  | .error _ => true
  | .ok _ => false

/-- The interactive format map of lines 205-209. -/
def format_map : String → Option String := fun f =>
  if f = "1" then some "parquet"
  else if f = "2" then some "csv"
  else if f = "3" then some "hdf"
  else none

/-- Lines 211-213: the user's comma-separated choice, each piece
stripped, unrecognized codes silently dropped. -/
def selected_formats (format_choice : String) : List String :=
  (pySplit ',' format_choice).filterMap (fun f => format_map (pyStrip f))

/-- Python dict insertion `m[k] = v` on an insertion-ordered
association list. -/
def dictInsert (m : List (String × String)) (k v : String) :
    List (String × String) :=
  if m.any (fun p => p.1 = k) then
    m.map (fun p => if p.1 = k then (k, v) else p)
  else m ++ [(k, v)]

/-- One iteration of the `for fmt in formats` loop of
`save_processed_data` (lines 24-41): build the output path, record the
path under the format's key when a writer branch matches, and print
(second component) the file size in megabytes. -/
def saveFoldStep (getFileSize : String → ℚ) (base_filename : String)
    (acc : List (String × String) × List ℚ) (fmt : String) :
    List (String × String) × List ℚ :=
  let output_path := "processed_data/" ++ base_filename ++ "." ++ fmt
  let res1 :=
    if fmt = "parquet" ∨ fmt = "csv" ∨ fmt = "hdf" then
      dictInsert acc.1 fmt output_path
    else acc.1
  (res1, acc.2 ++ [getFileSize output_path])

set_option linter.unusedVariables false in
/-- `save_processed_data` (lines 13-43).  `getFileSize` is the
`get_file_size` oracle; the first component of the result is the
function's Python return value (format → written path); the second
records the megabyte sizes it prints, in order. -/
def save_processed_data (getFileSize : String → ℚ) (df : DataFrame)
    (base_filename : String) (formats : Option (List String)) :
    List (String × String) × List ℚ :=
  let fmts := match formats with | none => ["parquet"] | some l => l
  fmts.foldl (saveFoldStep getFileSize base_filename) ([], [])

/-- The save step of `process_transcript_files` (lines 211-221): save
with the selected formats when some are recognized, otherwise print
"No valid formats selected. Data not saved." and save nothing
(`none`). -/
def saveStep (getFileSize : String → ℚ) (df : DataFrame)
    (format_choice : String) :
    Option (List (String × String) × List ℚ) :=
  let sel := selected_formats format_choice
  if sel ≠ [] then
    some (save_processed_data getFileSize df "processed_transcripts" (some sel))
  else none

/-- The example stream of the spec's scenarios. -/
def exStream : List Char := "A~B~C\x601~2~3\x604~5~6\x60".data

/-- A stream whose single record has more fields than the header. -/
def malformedStream : List Char := "A~B\x601~2~3\x60".data

/-- A stream with ragged records: the second row is one field short. -/
def raggedStream : List Char := "A~B\x601~2\x603\x60".data

/-- An arbitrary concrete DataFrame for witnesses. -/
def dfEx : DataFrame := ⟨[], []⟩

deriving instance DecidableEq for Except

theorem nrowsHit_none (rc : Nat) : nrowsHit none rc = false := rfl

theorem nrowsHit_zero (nrows : Option Nat) : nrowsHit nrows 0 = false := by
  cases nrows with
  | none => rfl
  | some n => simp [nrowsHit]

theorem nrowsHit_some_iff (n rc : Nat) :
    nrowsHit (some n) rc = true ↔ n ≠ 0 ∧ n ≤ rc := by
  simp [nrowsHit]

theorem tokenize_eq_map (proj : Option (List Nat)) (nrows : Option Nat)
    (s : List Char) : ∀ (cur : String) (rc : Nat),
    tokenize proj nrows s cur rc =
      (tokenizeFields nrows s cur rc).map (mkRowData proj) := by
  induction s with
  | nil => intro cur rc; rfl
  | cons ch rest ih =>
    intro cur rc
    simp only [tokenize, tokenizeFields]
    split
    · split
      · split
        · rfl
        · simp [ih]
      · split
        · rfl
        · exact ih "" rc
    · exact ih (cur.push ch) rc

theorem tokenizeFields_none_length (s : List Char) : ∀ (cur : String) (rc : Nat),
    (tokenizeFields none s cur rc).length = rowSepEmitCount s cur := by
  induction s with
  | nil => intro _ _; rfl
  | cons ch rest ih =>
    intro cur rc
    simp only [tokenizeFields, rowSepEmitCount]
    split
    · split
      · simp only [nrowsHit_none, if_false, Bool.false_eq_true, List.length_cons, ih]
        omega
      · simp only [nrowsHit_none, if_false, Bool.false_eq_true, ih]
        omega
    · exact ih (cur.push ch) rc

/-- C2: with no row limit set, the number of Records the Tokenizing
Reader emits equals the number of row-separator occurrences after the
header whose preceding accumulated content is non-empty after trimming
(so whitespace-only segments and a trailing separator followed by
nothing contribute zero records). -/
theorem reader_count_eq_nonblank_rowseps (stream : List Char)
    (usecols : Option (List String)) :
    (readerRecords stream none usecols).length =
      rowSepEmitCount (parseHeader stream).2 "" := by
  unfold readerRecords
  rw [tokenize_eq_map, List.length_map]
  exact tokenizeFields_none_length _ _ _

/-- C7: the example stream with tilde field separator and backtick row
separator yields header `[A,B,C]` and exactly the two records
`[1,2,3]` then `[4,5,6]`, in that order. -/
theorem example_stream_parse :
    read_custom_format exStream none none 100000 =
      .ok ⟨["A", "B", "C"],
        [[some "1", some "2", some "3"], [some "4", some "5", some "6"]]⟩ := rfl

theorem saveFold_fst_indep (g1 g2 : String → ℚ) (base : String)
    (fmts : List String) : ∀ (r : List (String × String)) (p1 p2 : List ℚ),
    (fmts.foldl (saveFoldStep g1 base) (r, p1)).1 =
      (fmts.foldl (saveFoldStep g2 base) (r, p2)).1 := by
  induction fmts with
  | nil => intro r p1 p2; rfl
  | cons f t ih =>
    intro r p1 p2
    simp only [List.foldl_cons]
    exact ih _ _ _

/-- C1 (counterexample): an unrecognized format choice ("9") makes the
filtered set empty, and the save step then saves nothing (`none`,
"Data not saved") instead of falling back to a default format. -/
theorem empty_format_choice_skips_save :
    selected_formats "9" = [] ∧ saveStep (fun _ => 1) dfEx "9" = none :=
  ⟨rfl, rfl⟩

/-- C1 (amended): when the filtered format set is empty the interactive
save step skips the save entirely; the single-default-format fallback
(`['parquet']`) applies only when `save_processed_data` is called with
`formats=None`, which the interactive path never does. -/
theorem save_skip_and_default_fallback (g : String → ℚ) (df : DataFrame)
    (choice : String) (h : selected_formats choice = []) :
    saveStep g df choice = none ∧
    (save_processed_data g df "processed_transcripts" none).1 =
      [("parquet", "processed_data/processed_transcripts.parquet")] := by
  constructor
  · unfold saveStep
    simp [h]
  · rfl

/-- Witness for `save_skip_and_default_fallback` at the concrete
choice "9". -/
theorem save_skip_witness :
    selected_formats "9" = [] ∧
      saveStep (fun _ => 1) dfEx "9" = none ∧
      (save_processed_data (fun _ => 1) dfEx "processed_transcripts" none).1 =
        [("parquet", "processed_data/processed_transcripts.parquet")] :=
  ⟨rfl, (save_skip_and_default_fallback (fun _ => 1) dfEx "9" rfl).1,
    (save_skip_and_default_fallback (fun _ => 1) dfEx "9" rfl).2⟩

/-- C6 (counterexample): two runs whose written parquet files have
different sizes (1 MB vs 7 MB) return identical values, and that value
is just the format-to-path mapping — so the save operation's writers do
not return the written file's size. -/
theorem save_return_lacks_size :
    (save_processed_data (fun _ => 1) dfEx "processed_transcripts"
        (some ["parquet"])).1 =
      (save_processed_data (fun _ => 7) dfEx "processed_transcripts"
        (some ["parquet"])).1 ∧
    (save_processed_data (fun _ => 1) dfEx "processed_transcripts"
        (some ["parquet"])).1 =
      [("parquet", "processed_data/processed_transcripts.parquet")] ∧
    (1 : ℚ) ≠ 7 :=
  ⟨rfl, rfl, by norm_num⟩

/-- C6 (amended): the save operation returns only the mapping from
format to written path — the same value whatever the files' sizes —
while the size in megabytes is computed and printed (second component)
for each format, not returned. -/
theorem save_returns_paths_only (g1 g2 : String → ℚ) (df : DataFrame)
    (base : String) (formats : Option (List String)) :
    (save_processed_data g1 df base formats).1 =
      (save_processed_data g2 df base formats).1 ∧
    (save_processed_data g1 df "processed_transcripts"
        (some ["parquet", "csv"])).1 =
      [("parquet", "processed_data/processed_transcripts.parquet"),
        ("csv", "processed_data/processed_transcripts.csv")] ∧
    (save_processed_data g1 df "processed_transcripts"
        (some ["parquet", "csv"])).2 =
      [g1 "processed_data/processed_transcripts.parquet",
        g1 "processed_data/processed_transcripts.csv"] := by
  refine ⟨?_, rfl, rfl⟩
  unfold save_processed_data
  exact saveFold_fst_indep g1 g2 base _ [] [] []

/-- C5 (counterexample): a record with more fields than the header makes
table-fragment conversion fail, and `read_custom_format` aborts with the
conversion error — under the default chunk size, a chunk size of 1, and
a row limit alike; no invocation skips the malformed row. -/
theorem malformed_row_fatal_examples :
    read_custom_format malformedStream none none 100000 =
      .error "columns passed mismatch" ∧
    read_custom_format malformedStream none none 1 =
      .error "columns passed mismatch" ∧
    read_custom_format malformedStream (some 5) none 100000 =
      .error "columns passed mismatch" :=
  ⟨rfl, rfl, rfl⟩

/-- C5 (amended): rows that fail table-fragment conversion are always
fatal: for every row limit and every chunk size, reading a stream whose
record is wider than its header aborts with an error.  The reader has no
lenient mode — no per-invocation configuration makes such rows skipped. -/
theorem malformed_row_always_fatal (nrows : Option Nat) (chunksize : Nat) :
    isErr (read_custom_format malformedStream nrows none chunksize) = true := by
  have h1 : processRows none ["A", "B"] nrows chunksize ("1~2~3\x60".data) "" [] [] 0 =
      if 1 ≥ chunksize then Except.error "columns passed mismatch"
      else if nrowsHit nrows 1 then Except.error "columns passed mismatch"
      else Except.error "columns passed mismatch" := rfl
  have h2 : read_custom_format malformedStream nrows none chunksize =
      match processRows none ["A", "B"] nrows chunksize ("1~2~3\x60".data) "" [] [] 0 with
      | .error e => .error e
      | .ok dfs => pdConcat dfs := rfl
  rw [h2, h1]
  split
  · rfl
  · rename_i dfs heq
    split at heq <;> simp at heq

theorem nrowsHit_none_ne (rc : Nat) : ¬ nrowsHit none rc = true := by
  simp [nrowsHit]

theorem tokenizeFields_limit_length (n : Nat) (s : List Char) :
    ∀ (cur : String) (rc : Nat), rc < n →
      (tokenizeFields (some n) s cur rc).length =
        min (n - rc) (tokenizeFields none s cur rc).length := by
  induction s with
  | nil =>
    intro cur rc hrc
    simp [tokenizeFields]
  | cons ch rest ih =>
    intro cur rc hrc
    by_cases hch : ch = rowSep
    · by_cases hem : pyStrip cur ≠ ""
      · by_cases hhit : nrowsHit (some n) (rc + 1) = true
        · have h1 : n ≤ rc + 1 := ((nrowsHit_some_iff n (rc + 1)).1 hhit).2
          simp only [tokenizeFields]
          rw [if_pos hch, if_pos hch, if_pos hem, if_pos hem, if_pos hhit,
            if_neg (nrowsHit_none_ne (rc + 1))]
          simp only [List.length_cons, List.length_nil]
          omega
        · have h1 : ¬ n ≤ rc + 1 := fun hle =>
            hhit ((nrowsHit_some_iff n (rc + 1)).2 ⟨by omega, hle⟩)
          simp only [tokenizeFields]
          rw [if_pos hch, if_pos hch, if_pos hem, if_pos hem, if_neg hhit,
            if_neg (nrowsHit_none_ne (rc + 1))]
          simp only [List.length_cons]
          rw [ih "" (rc + 1) (by omega)]
          omega
      · have h2 : ¬ nrowsHit (some n) rc = true := by
          intro h
          rcases (nrowsHit_some_iff n rc).1 h with ⟨_, hle⟩
          omega
        simp only [tokenizeFields]
        rw [if_pos hch, if_pos hch, if_neg hem, if_neg hem, if_neg h2,
          if_neg (nrowsHit_none_ne rc)]
        exact ih "" rc hrc
    · simp only [tokenizeFields]
      rw [if_neg hch, if_neg hch]
      exact ih (cur.push ch) rc hrc

/-- C8 (counterexample): with the row limit set to 0 the reader emits
every available record — Python's `if nrows and ...` treats `nrows=0`
as no limit — instead of the claimed `min(0, available) = 0` rows. -/
theorem nrows_zero_not_limit :
    (readerRecords ("A\x601\x60".data) (some 0) none).length ≠
      min 0 (readerRecords ("A\x601\x60".data) none none).length := by decide

/-- C8 (amended): for every positive row limit N the Tokenizing Reader
stops after N records regardless of remaining stream content, emitting
exactly min(N, available) records; a limit of 0 is treated as no limit. -/
theorem row_limit_min (stream : List Char) (usecols : Option (List String))
    (n : Nat) (hn : 0 < n) :
    (readerRecords stream (some n) usecols).length =
      min n (readerRecords stream none usecols).length := by
  unfold readerRecords
  rw [tokenize_eq_map, tokenize_eq_map, List.length_map, List.length_map]
  have h := tokenizeFields_limit_length n (parseHeader stream).2 "" 0 hn
  simpa using h

/-- Witness for `row_limit_min`: limit 1 on the two-record example
stream yields exactly one record. -/
theorem row_limit_min_witness :
    0 < 1 ∧
      (readerRecords exStream (some 1) none).length =
        min 1 (readerRecords exStream none none).length :=
  ⟨Nat.one_pos, row_limit_min exStream none 1 Nat.one_pos⟩

theorem processRows_cons_other (proj : Option (List Nat)) (H : List String)
    (nrows : Option Nat) (c : Nat) (ch : Char) (rest : List Char)
    (cur : String) (chunk : List (List (Option String)))
    (dfs : List DataFrame) (rc : Nat) (hch : ¬ ch = rowSep) :
    processRows proj H nrows c (ch :: rest) cur chunk dfs rc =
      processRows proj H nrows c rest (cur.push ch) chunk dfs rc := by
  simp only [processRows]
  rw [if_neg hch]

theorem processRows_sep_skip (proj : Option (List Nat)) (H : List String)
    (nrows : Option Nat) (c : Nat) (rest : List Char) (cur : String)
    (chunk : List (List (Option String))) (dfs : List DataFrame) (rc : Nat)
    (hem : pyStrip cur = "") (hfl : chunk.length < c)
    (hhit : nrowsHit nrows rc = false) :
    processRows proj H nrows c (rowSep :: rest) cur chunk dfs rc =
      processRows proj H nrows c rest "" chunk dfs rc := by
  have hge : ¬ chunk.length ≥ c := by omega
  simp [processRows, hem, hge, hhit]

theorem processRows_sep_emit_noflush (proj : Option (List Nat))
    (H : List String) (nrows : Option Nat) (c : Nat) (rest : List Char)
    (cur : String) (chunk : List (List (Option String)))
    (dfs : List DataFrame) (rc : Nat) (hem : pyStrip cur ≠ "")
    (hfl : (chunk ++ [mkRowData proj (pySplit fieldSep cur)]).length < c)
    (hhit : nrowsHit nrows (rc + 1) = false) :
    processRows proj H nrows c (rowSep :: rest) cur chunk dfs rc =
      processRows proj H nrows c rest ""
        (chunk ++ [mkRowData proj (pySplit fieldSep cur)]) dfs (rc + 1) := by
  have hfl2 : chunk.length + 1 < c := by simpa using hfl
  simp [processRows, hem, hhit]
  intro h
  exact absurd h (by omega)

theorem processRows_sep_emit_flush (proj : Option (List Nat))
    (H : List String) (nrows : Option Nat) (c : Nat) (rest : List Char)
    (cur : String) (chunk : List (List (Option String)))
    (dfs : List DataFrame) (rc : Nat) (df : DataFrame)
    (hem : pyStrip cur ≠ "")
    (hfl : (chunk ++ [mkRowData proj (pySplit fieldSep cur)]).length ≥ c)
    (hdf : mkDataFrame (chunk ++ [mkRowData proj (pySplit fieldSep cur)]) H =
      .ok df)
    (hhit : nrowsHit nrows (rc + 1) = false) :
    processRows proj H nrows c (rowSep :: rest) cur chunk dfs rc =
      processRows proj H nrows c rest "" [] (dfs ++ [df]) (rc + 1) := by
  have hfl2 : c ≤ chunk.length + 1 := by simpa using hfl
  simp [processRows, hem, hdf, hhit]
  intro h
  exact absurd h (by omega)

theorem processRows_no_records (proj : Option (List Nat)) (H : List String)
    (nrows : Option Nat) (chunksize : Nat) (hc : 1 ≤ chunksize)
    (s : List Char) : ∀ (cur : String) (dfs : List DataFrame),
    rowSepEmitCount s cur = 0 →
    processRows proj H nrows chunksize s cur [] dfs 0 = .ok dfs := by
  induction s with
  | nil => intro cur dfs _; rfl
  | cons ch rest ih =>
    intro cur dfs h
    by_cases hch : ch = rowSep
    · have hsum : (if pyStrip cur ≠ "" then 1 else 0) + rowSepEmitCount rest "" = 0 := by
        have h2 := h
        simp only [rowSepEmitCount] at h2
        rw [if_pos hch] at h2
        exact h2
      have hem : pyStrip cur = "" := by
        by_cases hne : pyStrip cur ≠ ""
        · rw [if_pos hne] at hsum; omega
        · exact not_not.mp hne
      have hrest : rowSepEmitCount rest "" = 0 := by omega
      subst hch
      rw [processRows_sep_skip proj H nrows chunksize rest cur [] dfs 0 hem
        (by simpa using hc) (nrowsHit_zero nrows)]
      exact ih "" dfs hrest
    · have h2 : rowSepEmitCount rest (cur.push ch) = 0 := by
        have h3 := h
        simp only [rowSepEmitCount] at h3
        rw [if_neg hch] at h3
        exact h3
      rw [processRows_cons_other proj H nrows chunksize ch rest cur [] dfs 0 hch]
      exact ih (cur.push ch) dfs h2

/-- C10: for every stream with a header but no row separator followed by
non-empty trimmed content (zero data records), and any positive chunk
size, `read_custom_format` raises the concatenation error instead of
returning an empty Table with the header's columns. -/
theorem zero_records_concat_error (stream : List Char) (nrows : Option Nat)
    (usecols : Option (List String)) (chunksize : Nat)
    (hc : 1 ≤ chunksize)
    (h0 : rowSepEmitCount (parseHeader stream).2 "" = 0) :
    read_custom_format stream nrows usecols chunksize =
      .error "No objects to concatenate" := by
  simp only [read_custom_format]
  rw [processRows_no_records _ _ nrows chunksize hc _ "" [] h0]
  rfl

/-- Witness for `zero_records_concat_error`: a header-only stream under
the default chunk size. -/
theorem zero_records_concat_error_witness :
    1 ≤ 100000 ∧
      rowSepEmitCount (parseHeader ("A~B~C".data)).2 "" = 0 ∧
      read_custom_format ("A~B~C".data) none none 100000 =
        .error "No objects to concatenate" :=
  ⟨by omega, rfl,
    zero_records_concat_error ("A~B~C".data) none none 100000 (by omega) rfl⟩

/-- C9: a record with fewer fields than the requested projected columns
yields the null marker for every projected position past the record's
last field, rather than failing: the j-th emitted record is the
projection of the j-th raw field list, and any resolved position at or
beyond that list's length projects to `none`. -/
theorem missing_projected_fields_null (stream : List Char)
    (cols : List String) (nrows : Option Nat) (j k : Nat)
    (f : List String) (hcols : cols ≠ [])
    (hf : (tokenizeFields nrows (parseHeader stream).2 "" 0).get? j = some f)
    (hk : k < (resolveCols (parseHeader stream).1 cols).length)
    (hmiss : f.length ≤ (resolveCols (parseHeader stream).1 cols).get ⟨k, hk⟩) :
    (readerRecords stream nrows (some cols)).get? j =
      some (mkRowData (some (resolveCols (parseHeader stream).1 cols)) f) ∧
    (mkRowData (some (resolveCols (parseHeader stream).1 cols)) f).get? k =
      some none := by
  constructor
  · simp only [readerRecords]
    have hcfg : (resolveCfg (parseHeader stream).1 (some cols)).1 =
        some (resolveCols (parseHeader stream).1 cols) := by
      simp [resolveCfg, hcols]
    rw [hcfg, tokenize_eq_map, List.get?_map, hf]
    rfl
  · unfold mkRowData
    rw [List.get?_map, List.get?_eq_get hk]
    have hnone : f.get? ((resolveCols (parseHeader stream).1 cols).get ⟨k, hk⟩) =
        none := List.get?_eq_none.mpr hmiss
    simp [hnone]
    exact hmiss

/-- Witness for `missing_projected_fields_null`: projecting `[C,A]` on
a one-field record `[1]` puts `none` at the position resolved for `C`. -/
theorem missing_projected_fields_null_witness :
    (readerRecords ("A~B~C\x601\x60".data) none (some ["C", "A"])).get? 0 =
      some (mkRowData
        (some (resolveCols (parseHeader ("A~B~C\x601\x60".data)).1 ["C", "A"]))
        ["1"]) ∧
    (mkRowData
        (some (resolveCols (parseHeader ("A~B~C\x601\x60".data)).1 ["C", "A"]))
        ["1"]).get? 0 = some none :=
  missing_projected_fields_null ("A~B~C\x601\x60".data) ["C", "A"] none 0 0
    ["1"] (by decide) (by decide) (by decide) (by decide)

/-- C3 (counterexample): with an empty requested-column list the claim
fails — Python's `if usecols:` is falsy for `[]` (lines 72, 92), so no
projection is applied and the full rows are emitted, not the projection
of zero resolved positions (which would be empty records). -/
theorem empty_usecols_no_projection :
    readerRecords exStream none (some []) ≠
      (tokenizeFields none (parseHeader exStream).2 "" 0).map
        (fun f => (resolveCols (parseHeader exStream).1 []).map
          (fun i => f.get? i)) ∧
    readerRecords exStream none (some []) =
      (tokenizeFields none (parseHeader exStream).2 "" 0).map
        (mkRowData none) :=
  ⟨by decide, rfl⟩

/-- C3 (amended): for every non-empty list of requested column names
the positions are resolved against the header once (`resolveCols`), and
every emitted record consists of exactly those positions' fields in the
requested order; an empty requested list is falsy in Python and behaves
as no projection.  On the example stream, projecting `[C,A]` yields
`[3,1]` then `[6,4]`. -/
theorem projection_resolved_once (stream : List Char) (cols : List String)
    (hcols : cols ≠ []) :
    readerRecords stream none (some cols) =
      (tokenizeFields none (parseHeader stream).2 "" 0).map
        (fun f => (resolveCols (parseHeader stream).1 cols).map
          (fun i => f.get? i)) ∧
    read_custom_format exStream none (some ["C", "A"]) 100000 =
      .ok ⟨["C", "A"], [[some "3", some "1"], [some "6", some "4"]]⟩ := by
  constructor
  · simp only [readerRecords]
    have hcfg : (resolveCfg (parseHeader stream).1 (some cols)).1 =
        some (resolveCols (parseHeader stream).1 cols) := by
      simp [resolveCfg, hcols]
    rw [hcfg, tokenize_eq_map]
    rfl
  · rfl

/-- Witness for `projection_resolved_once` at the example stream with
requested columns `[C,A]`. -/
theorem projection_resolved_once_witness :
    ["C", "A"] ≠ ([] : List String) ∧
      readerRecords exStream none (some ["C", "A"]) =
        (tokenizeFields none (parseHeader exStream).2 "" 0).map
          (fun f => (resolveCols (parseHeader exStream).1 ["C", "A"]).map
            (fun i => f.get? i)) ∧
      read_custom_format exStream none (some ["C", "A"]) 100000 =
        .ok ⟨["C", "A"], [[some "3", some "1"], [some "6", some "4"]]⟩ :=
  ⟨by decide, (projection_resolved_once exStream ["C", "A"] (by decide)).1,
    (projection_resolved_once exStream ["C", "A"] (by decide)).2⟩

theorem foldl_max_const (n : Nat) (l : List (List (Option String))) :
    ∀ (a : Nat), (∀ r ∈ l, r.length = n) →
      l.foldl (fun m r => max m r.length) a = if l = [] then a else max a n := by
  induction l with
  | nil => intro a _; simp
  | cons r t ih =>
    intro a h
    have hr : r.length = n := h r (by simp)
    simp only [List.foldl_cons, hr]
    rw [ih (max a n) (fun x hx => h x (by simp [hx]))]
    by_cases ht : t = []
    · simp [ht]
    · simp [ht, max_assoc]

theorem mkDataFrame_uniform (H : List String)
    (ch : List (List (Option String))) (hne : ch ≠ [])
    (hlen : ∀ r ∈ ch, r.length = H.length) :
    mkDataFrame ch H = .ok ⟨H, ch⟩ := by
  obtain ⟨r, t, rfl⟩ := List.exists_cons_of_ne_nil hne
  simp only [mkDataFrame]
  rw [foldl_max_const H.length (r :: t) 0 hlen]
  have hmap : (r :: t).map
      (fun row => row ++ List.replicate
        ((if r :: t = [] then 0 else max 0 H.length) - row.length)
        (none : Option String)) = (r :: t).map id := by
    apply List.map_congr_left
    intro a ha
    have hl := hlen a ha
    simp [hl]
  rw [hmap, List.map_id]
  simp

theorem pdConcat_cols (H : List String) (D : List DataFrame) (hne : D ≠ [])
    (hcols : ∀ df ∈ D, df.columns = H) :
    pdConcat D = .ok ⟨H, (D.map DataFrame.rows).flatten⟩ := by
  obtain ⟨d, t, rfl⟩ := List.exists_cons_of_ne_nil hne
  simp only [pdConcat]
  rw [hcols d (by simp)]

theorem processRows_uniform (H : List String) (c : Nat) (s : List Char) :
    ∀ (cur : String) (chunk : List (List (Option String)))
      (dfs : List DataFrame) (rc : Nat),
      chunk.length < c →
      (∀ r ∈ chunk, r.length = H.length) →
      (∀ f ∈ tokenizeFields none s cur rc, f.length = H.length) →
      ∃ D, processRows none H none c s cur chunk dfs rc = .ok (dfs ++ D) ∧
        (D.map DataFrame.rows).flatten =
          chunk ++ (tokenizeFields none s cur rc).map (mkRowData none) ∧
        (∀ df ∈ D, df.columns = H) ∧ (∀ df ∈ D, df.rows ≠ []) := by
  induction s with
  | nil =>
    intro cur chunk dfs rc _ hchunk _
    by_cases hech : chunk = []
    · refine ⟨[], ?_, ?_, ?_, ?_⟩
      · simp [processRows, flushFinal, hech]
      · simp [tokenizeFields, hech]
      · simp
      · simp
    · refine ⟨[⟨H, chunk⟩], ?_, ?_, ?_, ?_⟩
      · simp only [processRows, flushFinal]
        rw [if_neg hech, mkDataFrame_uniform H chunk hech hchunk]
      · simp [tokenizeFields]
      · simp
      · simp [hech]
  | cons ch rest ih =>
    intro cur chunk dfs rc hlt hchunk hrec
    by_cases hch : ch = rowSep
    · subst hch
      by_cases hem : pyStrip cur ≠ ""
      · have hrec1 : tokenizeFields none (rowSep :: rest) cur rc =
            pySplit fieldSep cur :: tokenizeFields none rest "" (rc + 1) := by
          simp [tokenizeFields, hem, nrowsHit_none]
        have hflen : (pySplit fieldSep cur).length = H.length :=
          hrec (pySplit fieldSep cur) (by rw [hrec1]; simp)
        have hrowlen : (mkRowData none (pySplit fieldSep cur)).length = H.length := by
          simp [mkRowData, hflen]
        have hresttl : ∀ f ∈ tokenizeFields none rest "" (rc + 1),
            f.length = H.length := by
          intro f hf
          exact hrec f (by rw [hrec1]; simp [hf])
        have hch1 : ∀ r ∈ chunk ++ [mkRowData none (pySplit fieldSep cur)],
            r.length = H.length := by
          intro r hr
          rcases List.mem_append.mp hr with h | h
          · exact hchunk r h
          · rw [List.mem_singleton.mp h]
            exact hrowlen
        by_cases hfl : (chunk ++ [mkRowData none (pySplit fieldSep cur)]).length ≥ c
        · have hdf := mkDataFrame_uniform H
            (chunk ++ [mkRowData none (pySplit fieldSep cur)]) (by simp) hch1
          rw [processRows_sep_emit_flush none H none c rest cur chunk dfs rc
            ⟨H, chunk ++ [mkRowData none (pySplit fieldSep cur)]⟩ hem hfl hdf rfl]
          obtain ⟨D, hD1, hD2, hD3, hD4⟩ := ih "" []
            (dfs ++ [⟨H, chunk ++ [mkRowData none (pySplit fieldSep cur)]⟩])
            (rc + 1) (by simp only [List.length_nil]; omega) (by simp) hresttl
          refine ⟨⟨H, chunk ++ [mkRowData none (pySplit fieldSep cur)]⟩ :: D,
            ?_, ?_, ?_, ?_⟩
          · rw [hD1]
            simp
          · simp only [List.map_cons, List.flatten_cons, hD2]
            rw [hrec1]
            simp
          · intro df hdf2
            rcases List.mem_cons.mp hdf2 with h | h
            · rw [h]
            · exact hD3 df h
          · intro df hdf2
            rcases List.mem_cons.mp hdf2 with h | h
            · rw [h]; simp
            · exact hD4 df h
        · rw [processRows_sep_emit_noflush none H none c rest cur chunk dfs rc
            hem (by omega) rfl]
          obtain ⟨D, hD1, hD2, hD3, hD4⟩ := ih ""
            (chunk ++ [mkRowData none (pySplit fieldSep cur)]) dfs (rc + 1)
            (by omega) hch1 hresttl
          refine ⟨D, hD1, ?_, hD3, hD4⟩
          rw [hD2, hrec1]
          simp
      · have hem2 : pyStrip cur = "" := not_not.mp hem
        have hrec1 : tokenizeFields none (rowSep :: rest) cur rc =
            tokenizeFields none rest "" rc := by
          simp [tokenizeFields, hem2, nrowsHit_none]
        rw [processRows_sep_skip none H none c rest cur chunk dfs rc hem2 hlt rfl]
        obtain ⟨D, hD1, hD2, hD3, hD4⟩ := ih "" chunk dfs rc hlt hchunk
          (by rw [← hrec1]; exact hrec)
        refine ⟨D, hD1, ?_, hD3, hD4⟩
        rw [hD2, hrec1]
    · have hrec1 : tokenizeFields none (ch :: rest) cur rc =
          tokenizeFields none rest (cur.push ch) rc := by
        simp only [tokenizeFields]
        rw [if_neg hch]
      rw [processRows_cons_other none H none c ch rest cur chunk dfs rc hch]
      obtain ⟨D, hD1, hD2, hD3, hD4⟩ := ih (cur.push ch) chunk dfs rc hlt hchunk
        (by rw [← hrec1]; exact hrec)
      refine ⟨D, hD1, ?_, hD3, hD4⟩
      rw [hD2, hrec1]

/-- C4 (counterexample): on a ragged stream (second record one field
short of the header) a batch capacity of 1 aborts with a conversion
error while a capacity equal to the full row count (2) succeeds with the
short row padded — chunking is visible on such streams. -/
theorem chunking_visible_on_ragged_stream :
    (tokenizeFields none (parseHeader raggedStream).2 "" 0).length = 2 ∧
    read_custom_format raggedStream none none 1 ≠
      read_custom_format raggedStream none none 2 :=
  ⟨rfl, by decide⟩

/-- C4 (amended): on every stream whose records all have exactly the
header's field count and that has at least one record, a batch capacity
of 1 produces the same final Table as a capacity equal to the full row
count — chunking is invisible on width-uniform streams. -/
theorem chunking_invisible_uniform (stream : List Char)
    (hu : ∀ f ∈ tokenizeFields none (parseHeader stream).2 "" 0,
        f.length = (parseHeader stream).1.length)
    (hpos : 0 < (tokenizeFields none (parseHeader stream).2 "" 0).length) :
    read_custom_format stream none none 1 =
      read_custom_format stream none none
        (tokenizeFields none (parseHeader stream).2 "" 0).length := by
  have key : ∀ c, 1 ≤ c →
      read_custom_format stream none none c =
        .ok ⟨(parseHeader stream).1,
          (tokenizeFields none (parseHeader stream).2 "" 0).map
            (mkRowData none)⟩ := by
    intro c hc
    obtain ⟨D, hD1, hD2, hD3, hD4⟩ :=
      processRows_uniform (parseHeader stream).1 c (parseHeader stream).2 ""
        [] [] 0 (by simp only [List.length_nil]; omega) (by simp) hu
    have hDne : D ≠ [] := by
      intro hD
      rw [hD] at hD2
      have hlen := congrArg List.length hD2
      simp at hlen
      omega
    simp only [read_custom_format, resolveCfg]
    rw [hD1]
    simp only [List.nil_append]
    rw [pdConcat_cols (parseHeader stream).1 D hDne hD3, hD2]
    simp
  rw [key 1 (by omega), key _ hpos]

/-- Witness for `chunking_invisible_uniform`: the width-uniform example
stream with two records, capacities 1 and 2. -/
theorem chunking_invisible_uniform_witness :
    (∀ f ∈ tokenizeFields none (parseHeader exStream).2 "" 0,
        f.length = (parseHeader exStream).1.length) ∧
    0 < (tokenizeFields none (parseHeader exStream).2 "" 0).length ∧
    read_custom_format exStream none none 1 =
      read_custom_format exStream none none
        (tokenizeFields none (parseHeader exStream).2 "" 0).length :=
  ⟨by decide, by decide,
    chunking_invisible_uniform exStream (by decide) (by decide)⟩
